import Mathlib

/-!
Shallow embedding of `src/bfmr_monitor_github.py` (class `BFMRMonitor`).

The monitor runs once per invocation: it loads the ids persisted by the
previous run (`load_last_run_deals`), fetches the current deals payload
(`get_deals`), filters it to Amazon deals, classifies each as new/returning
against the previous ids, saves the current Amazon id set
(`save_current_run_deals`), and sends a notification when there are
new or returning deals (`check_for_new_deals`).

The network is modelled as a stream (list) of attempt outcomes the endpoint
would produce on successive GET requests; the code issues exactly one
request, so it consumes the head of the stream.  The state file is modelled
by the `FileContent` type: absent, unparseable (corrupt or truncated), or a
parsed record with an optional `deal_ids` list.
-/

namespace BFMRMonitor

/-- One marketplace deal as the code reads it from the JSON payload:
`deal.get('deal_id', '')`, `deal.get('retailers', '')`,
`deal.get('is_exclusive_deal', False)`.  Absent keys are `none`. -/
structure Deal where
  deal_id : Option String
  retailers : Option String
  is_exclusive_deal : Option Bool
  deriving DecidableEq, Repr

/-- `str(deal.get('deal_id', ''))` — the id string used for reconciliation;
an absent key yields the empty string. -/
def dealIdStr (d : Deal) : String := d.deal_id.getD ""

/-- Whether `needle` occurs as a contiguous sublist of the second list —
the embedding of Python's `in` operator on strings. -/
def hasSub (needle : List Char) : List Char → Bool
  | [] => needle.isEmpty
  | c :: rest => needle.isPrefixOf (c :: rest) || hasSub needle rest

/-- `'amazon' in deal.get('retailers', '').lower()` — the qualification
predicate selecting Amazon deals; `.lower()` maps each character to its
lower-case form. -/
def isAmazonDeal (d : Deal) : Bool :=
  hasSub "amazon".toList ((d.retailers.getD "").toList.map Char.toLower)

/-- The JSON payload of a 200 response: either a bare array of deals, or an
object whose `deals` / `data` keys (when present) hold the array; `extra`
records whether the object has any other key (it decides Python truthiness
of the dict in `if not deals_data`). -/
inductive Payload where
  | plist (deals : List Deal)
  | pdict (deals : Option (List Deal)) (data : Option (List Deal)) (extra : Bool)
  deriving DecidableEq, Repr

/-- Python truthiness of the fetched payload (`if not deals_data`): a list is
truthy iff nonempty, a dict iff it has at least one key. -/
def payloadTruthy : Payload → Bool
  | .plist ds => !ds.isEmpty
  | .pdict deals data extra => deals.isSome || data.isSome || extra

/-- `deals_data.get('deals', deals_data.get('data', []))` when the payload is
a dict, else the payload itself. -/
def extractDeals : Payload → List Deal
  | .plist ds => ds
  | .pdict deals data _ => deals.getD (data.getD [])

/-- Outcome of one GET request against the endpoint: a response with a
status code and body, or a raised transport exception (timeout etc.). -/
inductive HttpResult where
  | response (status : Nat) (body : Payload)
  | transportError
  deriving DecidableEq, Repr

/-- `BFMRMonitor.get_deals`, over the stream of outcomes the network would
return to successive requests.  The code performs a single
`requests.get(endpoint, headers=headers, timeout=10)` inside `try`: a 200
returns the parsed body, a 401 prints and returns `None`, any other status
prints and returns `None`, and a raised exception is caught and returns
`None`.  Only the head of the stream is ever consumed. -/
def get_deals : List HttpResult → Option Payload
  | [] => none
  | .transportError :: _ => none
  | .response status body :: _ =>
    if status = 200 then some body
    else if status = 401 then none
    else none

/-- Content of `last_run_deals.json` as seen by the state store: the file is
absent, or exists but fails to parse into a usable record (corrupt or
truncated JSON, or a shape on which `set(...)` raises — the bare `except`
catches all of these), or parses to an object whose optional `deal_ids` key
holds a list of id strings. -/
inductive FileContent where
  | absent
  | unparseable
  | record (deal_ids : Option (List String))
  deriving DecidableEq, Repr

/-- `BFMRMonitor.load_last_run_deals`: if the file exists, try to parse it
and return `set(data.get('deal_ids', []))`; on any exception, or when the
file does not exist, return the empty set. -/
def load_last_run_deals : FileContent → Finset String
  | .absent => ∅
  | .unparseable => ∅
  | .record ids => (ids.getD []).toFinset

/-- `BFMRMonitor.save_current_run_deals`: the record written to the file —
`{'deal_ids': list(deal_ids), 'timestamp': ...}`.  Python enumerates the set
in an unspecified order; the sorted enumeration stands for it here.  The
timestamp is ignored by `load_last_run_deals` and not modelled. -/
def save_current_run_deals (deal_ids : Finset String) : FileContent :=
  .record (some (deal_ids.sort (· ≤ ·)))

/-- The successive on-disk contents during `save_current_run_deals`:
`open(self.last_run_file, 'w')` truncates the file at once (an empty file,
not parseable as JSON), and only then does `json.dump` write the record.
There is no write-to-temp-then-rename step. -/
def saveWriteSequence (deal_ids : Finset String) : List FileContent :=
  [.unparseable, save_current_run_deals deal_ids]

/-- Accumulator of the `for deal in deals` loop of
`BFMRMonitor.check_for_new_deals` (lines 179–198): the list of Amazon deals,
the set of their ids, the new-or-returning deals, and the exclusive count. -/
structure LoopAcc where
  amazon_deals : List Deal
  current_amazon_ids : Finset String
  new_or_returning_deals : List Deal
  exclusive_count : Nat
  deriving DecidableEq

/-- One iteration of the loop: an Amazon deal is appended to `amazon_deals`,
its id (possibly `""`) is added to `current_amazon_ids`, the exclusive
counter is bumped when `deal.get('is_exclusive_deal', False)` is truthy, and
the deal joins `new_or_returning_deals` when its id is nonempty (`if
deal_id`) and not in the previous run's ids; a non-Amazon deal is skipped. -/
def dealStep (last_run : Finset String) (acc : LoopAcc) (deal : Deal) : LoopAcc :=
  let deal_id := dealIdStr deal
  if isAmazonDeal deal then
    { amazon_deals := acc.amazon_deals ++ [deal]
      current_amazon_ids := insert deal_id acc.current_amazon_ids
      exclusive_count :=
        acc.exclusive_count + (if deal.is_exclusive_deal.getD false then 1 else 0)
      new_or_returning_deals :=
        if deal_id ≠ "" ∧ deal_id ∉ last_run then
          acc.new_or_returning_deals ++ [deal]
        else acc.new_or_returning_deals }
  else acc

/-- The whole loop, from the empty accumulator. -/
def runLoop (last_run : Finset String) (deals : List Deal) : LoopAcc :=
  deals.foldl (dealStep last_run) ⟨[], ∅, [], 0⟩

/-- Observable trace of one `check_for_new_deals` run: the state saved to
disk (`none` when `save_current_run_deals` was never invoked), the deals put
in the notification, whether `send_email` was invoked, and the disappeared
ids the run reported (`none` when the run returned before computing them). -/
structure RunTrace where
  saved : Option (Finset String)
  reportable : List Deal
  emailAttempted : Bool
  disappeared : Option (Finset String)
  deriving DecidableEq

/-- The part of `BFMRMonitor.check_for_new_deals` after a non-`None` fetch:
returns early — before any save — when the payload is falsy (`if not
deals_data`) or the extracted deals list is empty (`if not deals`);
otherwise it runs the loop, saves `current_amazon_ids`, invokes
`send_email` iff `new_or_returning_deals` is nonempty, and reports
`self.last_run_deals - current_amazon_ids` as disappeared.  `emailOk` is
the external mail transport's outcome: `send_email` catches its own
exceptions and returns a boolean that the caller discards, so it influences
nothing. -/
def runOutcome (last_run : Finset String) (emailOk : Bool) (deals_data : Payload) :
    RunTrace :=
  if !payloadTruthy deals_data then ⟨none, [], false, none⟩
  else
    let deals := extractDeals deals_data
    if deals.isEmpty then ⟨none, [], false, none⟩
    else
      let acc := runLoop last_run deals
      let _mailResult := emailOk
      ⟨some acc.current_amazon_ids, acc.new_or_returning_deals,
        !acc.new_or_returning_deals.isEmpty,
        some (last_run \ acc.current_amazon_ids)⟩

/-- `BFMRMonitor.check_for_new_deals`, over the network's outcome stream,
the previously loaded ids, and the mail transport's outcome: when
`get_deals` yields `None` the run prints a warning and returns without
touching any state, otherwise it proceeds as `runOutcome`. -/
def check_for_new_deals (attempts : List HttpResult) (last_run : Finset String)
    (emailOk : Bool) : RunTrace :=
  match get_deals attempts with
  | none => ⟨none, [], false, none⟩
  | some deals_data => runOutcome last_run emailOk deals_data

/-- The qualified (Amazon) deals of a payload's deal list, in input order. -/
def amazonDealsOf (deals : List Deal) : List Deal :=
  deals.filter (fun d => isAmazonDeal d)

/-- The id set the loop accumulates: the ids (including `""`) of all
Amazon deals. -/
def amazonIdsOf (deals : List Deal) : Finset String :=
  ((amazonDealsOf deals).map dealIdStr).toFinset

/-- The new-or-returning deals the loop accumulates: Amazon deals with a
nonempty id not present in the previous run's ids, in input order. -/
def reportableOf (last_run : Finset String) (deals : List Deal) : List Deal :=
  deals.filter (fun d =>
    isAmazonDeal d && decide (dealIdStr d ≠ "" ∧ dealIdStr d ∉ last_run))

theorem foldl_amazon_deals (P : Finset String) (deals : List Deal) :
    ∀ acc : LoopAcc,
      (List.foldl (dealStep P) acc deals).amazon_deals
        = acc.amazon_deals ++ amazonDealsOf deals := by
  induction deals with
  | nil => intro acc; simp [amazonDealsOf]
  | cons d ds ih =>
    intro acc
    simp only [List.foldl_cons]
    rw [ih]
    by_cases h : isAmazonDeal d
    · simp [dealStep, h, amazonDealsOf, List.filter_cons]
    · simp [dealStep, h, amazonDealsOf, List.filter_cons]

theorem foldl_current_ids (P : Finset String) (deals : List Deal) :
    ∀ acc : LoopAcc,
      (List.foldl (dealStep P) acc deals).current_amazon_ids
        = acc.current_amazon_ids ∪ amazonIdsOf deals := by
  induction deals with
  | nil => intro acc; simp [amazonIdsOf, amazonDealsOf]
  | cons d ds ih =>
    intro acc
    simp only [List.foldl_cons]
    rw [ih]
    by_cases h : isAmazonDeal d
    · simp only [dealStep, h, if_true, amazonIdsOf, amazonDealsOf, List.filter_cons,
        List.map_cons, List.toFinset_cons, Finset.union_insert, Finset.insert_union]
    · simp [dealStep, h, amazonIdsOf, amazonDealsOf, List.filter_cons]

theorem foldl_new_or_returning (P : Finset String) (deals : List Deal) :
    ∀ acc : LoopAcc,
      (List.foldl (dealStep P) acc deals).new_or_returning_deals
        = acc.new_or_returning_deals ++ reportableOf P deals := by
  induction deals with
  | nil => intro acc; simp [reportableOf]
  | cons d ds ih =>
    intro acc
    simp only [List.foldl_cons]
    rw [ih]
    by_cases h : isAmazonDeal d
    · by_cases hc : dealIdStr d ≠ "" ∧ dealIdStr d ∉ P
      · simp [dealStep, h, hc, reportableOf, List.filter_cons]
      · simp [dealStep, h, hc, reportableOf, List.filter_cons]
    · simp [dealStep, h, reportableOf, List.filter_cons]

theorem runLoop_amazon_deals (P : Finset String) (deals : List Deal) :
    (runLoop P deals).amazon_deals = amazonDealsOf deals := by
  rw [runLoop, foldl_amazon_deals]; rfl

theorem runLoop_current_ids (P : Finset String) (deals : List Deal) :
    (runLoop P deals).current_amazon_ids = amazonIdsOf deals := by
  rw [runLoop, foldl_current_ids]; exact Finset.empty_union _

theorem runLoop_new_or_returning (P : Finset String) (deals : List Deal) :
    (runLoop P deals).new_or_returning_deals = reportableOf P deals := by
  rw [runLoop, foldl_new_or_returning]; rfl

/-- Ids of Amazon deals land in `amazonIdsOf`. -/
theorem dealIdStr_mem_amazonIdsOf {deals : List Deal} {d : Deal}
    (hd : d ∈ deals) (ha : isAmazonDeal d = true) :
    dealIdStr d ∈ amazonIdsOf deals := by
  simp only [amazonIdsOf, amazonDealsOf, List.mem_toFinset, List.mem_map]
  exact ⟨d, List.mem_filter.mpr ⟨hd, ha⟩, rfl⟩

/-- Against a previous-ids set containing every Amazon id of `deals`,
nothing is classified new or returning. -/
theorem reportableOf_of_superset {deals : List Deal} {T : Finset String}
    (hT : amazonIdsOf deals ⊆ T) : reportableOf T deals = [] := by
  rw [reportableOf, List.filter_eq_nil_iff]
  intro d hd
  by_cases ha : isAmazonDeal d
  · have hmem : dealIdStr d ∈ T := hT (dealIdStr_mem_amazonIdsOf hd ha)
    simp [ha, hmem]
  · simp [ha]

/-- When the fetch yields `None`, the run does nothing observable. -/
theorem check_eq_failure {attempts : List HttpResult} (P : Finset String) (e : Bool)
    (h : get_deals attempts = none) :
    check_for_new_deals attempts P e = ⟨none, [], false, none⟩ := by
  unfold check_for_new_deals; rw [h]

/-- When the fetch yields a payload, the run is `runOutcome` on it. -/
theorem check_eq_outcome {attempts : List HttpResult} (P : Finset String) (e : Bool)
    {p : Payload} (h : get_deals attempts = some p) :
    check_for_new_deals attempts P e = runOutcome P e p := by
  unfold check_for_new_deals; rw [h]

/-- On a truthy payload with a nonempty deal list, the trace in terms of the
loop characterizations. -/
theorem runOutcome_main (P : Finset String) (e : Bool) {p : Payload}
    (ht : payloadTruthy p = true) (hz : (extractDeals p).isEmpty = false) :
    runOutcome P e p =
      ⟨some (amazonIdsOf (extractDeals p)),
       reportableOf P (extractDeals p),
       !(reportableOf P (extractDeals p)).isEmpty,
       some (P \ amazonIdsOf (extractDeals p))⟩ := by
  unfold runOutcome
  rw [ht]
  simp only [Bool.not_true, Bool.false_eq_true, if_false, hz,
    runLoop_current_ids, runLoop_new_or_returning]

/-- Anatomy of a run that reaches the save: the fetch returned a truthy
payload with a nonempty extracted deal list, and the whole trace is
determined by that payload and the previous ids. -/
theorem check_saved_anatomy {attempts : List HttpResult} {P : Finset String}
    {e : Bool} {S : Finset String}
    (hs : (check_for_new_deals attempts P e).saved = some S) :
    ∃ p, get_deals attempts = some p ∧ payloadTruthy p = true ∧
      (extractDeals p).isEmpty = false ∧
      S = amazonIdsOf (extractDeals p) ∧
      check_for_new_deals attempts P e =
        ⟨some (amazonIdsOf (extractDeals p)),
         reportableOf P (extractDeals p),
         !(reportableOf P (extractDeals p)).isEmpty,
         some (P \ amazonIdsOf (extractDeals p))⟩ := by
  cases hp : get_deals attempts with
  | none => rw [check_eq_failure P e hp] at hs; simp at hs
  | some p =>
    rw [check_eq_outcome P e hp] at hs ⊢
    by_cases ht : payloadTruthy p
    · by_cases hz : (extractDeals p).isEmpty
      · unfold runOutcome at hs
        rw [ht] at hs
        simp only [Bool.not_true, Bool.false_eq_true, if_false, hz, if_true] at hs
        simp at hs
      · have hz' : (extractDeals p).isEmpty = false := by simpa using hz
        rw [runOutcome_main P e ht hz'] at hs ⊢
        refine ⟨p, rfl, ht, hz', ?_, rfl⟩
        exact (Option.some.inj hs).symm
    · have ht' : payloadTruthy p = false := by simpa using ht
      unfold runOutcome at hs
      rw [ht'] at hs
      simp at hs

/-- The run trace never looks at the mail transport's outcome: `send_email`
returns a boolean that `check_for_new_deals` discards. -/
theorem check_email_irrelevant (attempts : List HttpResult) (P : Finset String)
    (e e' : Bool) :
    check_for_new_deals attempts P e = check_for_new_deals attempts P e' := by
  unfold check_for_new_deals runOutcome
  rfl

/-- Concrete Amazon deal with id "A", used to evaluate theorems. -/
def dealA : Deal := ⟨some "A", some "Amazon", none⟩

/-- Concrete exclusive Amazon deal with id "B". -/
def dealB : Deal := ⟨some "B", some "Amazon, BestBuy", some true⟩

/-- Concrete Amazon deal with no `deal_id` key. -/
def dealNoId : Deal := ⟨none, some "amazon", none⟩

/-- Concrete non-Amazon deal. -/
def dealOther : Deal := ⟨some "X", some "BestBuy", none⟩

/-- C1: the specification describes a fetch that retries on transport
timeout, so that timeouts on attempts 1 and 2 followed by a 200 on attempt
3 return the attempt-3 payload.  `get_deals` makes no second request: with
that very network stream it returns `None`, not the attempt-3 payload. -/
theorem C1_counterexample :
    get_deals [.transportError, .transportError, .response 200 (.plist [dealA])]
      = none ∧
    get_deals [.transportError, .transportError, .response 200 (.plist [dealA])]
      ≠ some (.plist [dealA]) := by
  exact ⟨rfl, by simp [get_deals]⟩

/-- C1 (amended): the fetch makes exactly one attempt — its result depends
only on the first network outcome.  A 200 on the first attempt returns its
payload; a transport error or any other status yields `None` immediately,
with no retry and no inter-attempt delay. -/
theorem C1_amended_single_attempt (e : HttpResult) (rest : List HttpResult) :
    get_deals (e :: rest) = get_deals [e] ∧
    (∀ b, e = .response 200 b → get_deals (e :: rest) = some b) ∧
    ((∀ b, e ≠ .response 200 b) → get_deals (e :: rest) = none) := by
  refine ⟨?_, ?_, ?_⟩
  · cases e <;> rfl
  · rintro b rfl
    simp [get_deals]
  · intro h
    cases e with
    | transportError => rfl
    | response s b =>
      by_cases hs : s = 200
      · exact absurd (by rw [hs]) (h b)
      · simp [get_deals, hs]

/-- C1 amended, evaluated: a first-attempt 200 returns its payload. -/
theorem C1_amended_single_attempt_witness :
    get_deals [HttpResult.response 200 (.plist [dealA]), .transportError]
      = some (.plist [dealA]) :=
  (C1_amended_single_attempt (.response 200 (.plist [dealA]))
      [.transportError]).2.1 (.plist [dealA]) rfl

/-- C4: when the first (and only) request does not come back with a 200 —
transport error, 401, any other status, or no outcome at all — the fetch
yields `None` and the run returns before ever invoking
`save_current_run_deals`: the persisted state is untouched. -/
theorem C4_failed_fetch_state_untouched (attempts : List HttpResult)
    (P : Finset String) (e : Bool)
    (h : ∀ b, attempts.head? ≠ some (.response 200 b)) :
    get_deals attempts = none ∧
    (check_for_new_deals attempts P e).saved = none := by
  have hg : get_deals attempts = none := by
    cases attempts with
    | nil => rfl
    | cons a rest =>
      cases a with
      | transportError => rfl
      | response s b =>
        by_cases hs : s = 200
        · exact absurd (by rw [hs]; rfl) (h b)
        · simp [get_deals, hs]
  exact ⟨hg, by rw [check_eq_failure P e hg]⟩

/-- C4, evaluated on a 401 response over previous state {"A"}. -/
theorem C4_failed_fetch_state_untouched_witness :
    get_deals [HttpResult.response 401 (.plist [dealA])] = none ∧
    (check_for_new_deals [HttpResult.response 401 (.plist [dealA])]
        {"A"} true).saved = none :=
  C4_failed_fetch_state_untouched [HttpResult.response 401 (.plist [dealA])]
    {"A"} true (by intro b hb; simp at hb)

/-- C6: the specification requires the 401 outcome to be distinct from the
retryable-exhausted outcome.  In `get_deals` both are the same `None`: a
401 response and a 500 response produce identical results, so the caller
cannot distinguish authentication failure from any other failure. -/
theorem C6_counterexample :
    get_deals [.response 401 (.plist [dealA])]
      = get_deals [.response 500 (.plist [dealA])] ∧
    get_deals [.response 401 (.plist [dealA])] = none := by
  exact ⟨rfl, rfl⟩

/-- C6 (amended): a 401 is not retried and yields `None` immediately, but
that `None` is exactly what a transport error or any other non-200 status
yields, so the two failure kinds are indistinguishable to the caller. -/
theorem C6_amended_auth_indistinguishable (b b' : Payload)
    (rest rest' : List HttpResult) (s : Nat) (hs : s ≠ 200) :
    get_deals (.response 401 b :: rest) = none ∧
    get_deals (.response 401 b :: rest) = get_deals (.response s b' :: rest') ∧
    get_deals (.response 401 b :: rest) = get_deals (.transportError :: rest') := by
  have h401 : get_deals (.response 401 b :: rest) = none := by
    simp [get_deals]
  have hst : get_deals (HttpResult.response s b' :: rest') = none := by
    simp [get_deals, hs, ite_self]
  exact ⟨h401, by rw [h401, hst], by rw [h401]; rfl⟩

/-- C6 amended, evaluated at status 500. -/
theorem C6_amended_auth_indistinguishable_witness :
    get_deals [HttpResult.response 401 (.plist [dealA])] = none ∧
    get_deals [HttpResult.response 401 (.plist [dealA])]
      = get_deals [HttpResult.response 500 (.plist [dealA])] ∧
    get_deals [HttpResult.response 401 (.plist [dealA])]
      = get_deals [HttpResult.transportError] :=
  C6_amended_auth_indistinguishable (.plist [dealA]) (.plist [dealA]) [] [] 500
    (by decide)

/-- C2: under the last-run-set policy, any run that completes reconciliation
persists exactly the id set of the currently qualified Amazon listings —
also when that set is empty — and reports as disappeared exactly the
previous ids absent from that set. -/
theorem C2_state_replaced_wholesale (attempts : List HttpResult)
    (P : Finset String) (e : Bool) (S : Finset String) (p : Payload)
    (hp : get_deals attempts = some p)
    (hs : (check_for_new_deals attempts P e).saved = some S) :
    S = amazonIdsOf (extractDeals p) ∧
    (check_for_new_deals attempts P e).disappeared =
      some (P \ amazonIdsOf (extractDeals p)) := by
  obtain ⟨q, hq, ht, hz, hS, htr⟩ := check_saved_anatomy hs
  rw [hp] at hq
  obtain rfl : p = q := Option.some.inj hq
  exact ⟨hS, by rw [htr]⟩

/-- C2, evaluated on a run whose qualified set is empty: the saved state is
the empty set and everything previously seen is reported disappeared. -/
theorem C2_state_replaced_wholesale_witness :
    (∅ : Finset String) = amazonIdsOf (extractDeals (.plist [dealOther])) ∧
    (check_for_new_deals [.response 200 (.plist [dealOther])] {"A"}
        true).disappeared =
      some ({"A"} \ amazonIdsOf (extractDeals (.plist [dealOther]))) :=
  C2_state_replaced_wholesale [.response 200 (.plist [dealOther])] {"A"} true ∅
    (.plist [dealOther]) rfl (by decide)

/-- C3: every deal classified new-or-returning is one of the input deals,
qualifies as an Amazon deal, and carries a nonempty id not present in the
previous ids; a qualified deal with an empty id is excluded from that
classification but still lands in the diagnostic `amazon_deals` list
(whose length and exclusive count the run prints). -/
theorem C3_reportable_sound (deals : List Deal) (P : Finset String) :
    (∀ d ∈ (runLoop P deals).new_or_returning_deals,
        d ∈ deals ∧ isAmazonDeal d = true ∧ dealIdStr d ≠ "" ∧ dealIdStr d ∉ P) ∧
    (∀ d ∈ deals, isAmazonDeal d = true →
        d ∈ (runLoop P deals).amazon_deals ∧
        (dealIdStr d = "" → d ∉ (runLoop P deals).new_or_returning_deals)) := by
  constructor
  · intro d hd
    rw [runLoop_new_or_returning, reportableOf, List.mem_filter] at hd
    obtain ⟨hmem, hcond⟩ := hd
    simp only [Bool.and_eq_true, decide_eq_true_eq] at hcond
    exact ⟨hmem, hcond.1, hcond.2.1, hcond.2.2⟩
  · intro d hd ha
    refine ⟨?_, ?_⟩
    · rw [runLoop_amazon_deals]
      exact List.mem_filter.mpr ⟨hd, ha⟩
    · intro hid hmem
      rw [runLoop_new_or_returning, reportableOf, List.mem_filter] at hmem
      simp only [Bool.and_eq_true, decide_eq_true_eq] at hmem
      exact hmem.2.2.1 hid

/-- C3, evaluated: with empty previous state, the deal with id "B" is
classified new and satisfies all three conditions. -/
theorem C3_reportable_sound_witness :
    dealB ∈ [dealB] ∧ isAmazonDeal dealB = true ∧ dealIdStr dealB ≠ "" ∧
      dealIdStr dealB ∉ (∅ : Finset String) :=
  (C3_reportable_sound [dealB] ∅).1 dealB (by decide)

/-- C5: the state commit follows reconciliation and ignores the mail
transport's outcome — the saved state is the same whether the email
succeeds or fails — and a following run against the committed state with
the same input classifies nothing as new or returning. -/
theorem C5_commit_independent_of_email (attempts : List HttpResult)
    (P : Finset String) (e e2 e3 : Bool) (S : Finset String)
    (hs : (check_for_new_deals attempts P e).saved = some S) :
    (check_for_new_deals attempts P e2).saved = some S ∧
    (check_for_new_deals attempts S e3).reportable = [] := by
  obtain ⟨p, hq, ht, hz, hS, htr⟩ := check_saved_anatomy hs
  refine ⟨?_, ?_⟩
  · rw [check_email_irrelevant attempts P e2 e]
    exact hs
  · rw [check_eq_outcome S e3 hq, runOutcome_main S e3 ht hz]
    show reportableOf S (extractDeals p) = []
    refine reportableOf_of_superset ?_
    rw [hS]

/-- C5, evaluated: a run over empty previous state saves {"A"}, whatever
the mail outcome, and rerunning on the committed state reports nothing. -/
theorem C5_commit_independent_of_email_witness :
    (check_for_new_deals [.response 200 (.plist [dealA])] ∅ false).saved
      = some {"A"} ∧
    (check_for_new_deals [.response 200 (.plist [dealA])] {"A"}
        true).reportable = [] :=
  C5_commit_independent_of_email [.response 200 (.plist [dealA])] ∅ true false
    true {"A"} (by decide)

/-- C7: the specification requires that an interrupted save never leave an
unreadable or truncated record.  `save_current_run_deals` opens the file
with mode `'w'`, which truncates it before `json.dump` writes anything:
saving {"B"} over a previous record for {"A"} passes through a truncated,
unparseable content that is neither the old record nor the new one, and
from which the old state {"A"} is no longer readable. -/
theorem C7_counterexample :
    FileContent.unparseable ∈ saveWriteSequence {"B"} ∧
    FileContent.unparseable ≠ save_current_run_deals {"A"} ∧
    FileContent.unparseable ≠ save_current_run_deals {"B"} ∧
    load_last_run_deals .unparseable ≠ ({"A"} : Finset String) := by
  refine ⟨by simp [saveWriteSequence], by decide, by decide, by decide⟩

/-- C7 (amended): a completed save durably writes the new record, and
loading it recovers exactly the saved ids; but the write is not atomic —
the file passes through a truncated, unparseable content, which a later
load degrades to the empty state rather than to the old one. -/
theorem C7_amended_save_truncates_then_writes (ids : Finset String) :
    (saveWriteSequence ids).getLast? = some (save_current_run_deals ids) ∧
    FileContent.unparseable ∈ saveWriteSequence ids ∧
    load_last_run_deals (save_current_run_deals ids) = ids ∧
    load_last_run_deals .unparseable = ∅ := by
  refine ⟨rfl, by simp [saveWriteSequence], ?_, rfl⟩
  simp [load_last_run_deals, save_current_run_deals, Finset.sort_toFinset]

/-- C8: loading is total — it always produces a state — and an absent or
unparseable state file yields the empty default state. -/
theorem C8_load_never_raises (fc : FileContent) :
    (fc = .absent ∨ fc = .unparseable → load_last_run_deals fc = ∅) ∧
    ∃ S : Finset String, load_last_run_deals fc = S := by
  refine ⟨?_, ⟨load_last_run_deals fc, rfl⟩⟩
  rintro (rfl | rfl) <;> rfl

/-- C8, evaluated on an unparseable file. -/
theorem C8_load_never_raises_witness :
    load_last_run_deals .unparseable = ∅ :=
  (C8_load_never_raises .unparseable).1 (Or.inr rfl)

/-- C9: round trip — loading immediately after saving any valid id set
returns exactly that set. -/
theorem C9_round_trip (S : Finset String) :
    load_last_run_deals (save_current_run_deals S) = S := by
  simp [load_last_run_deals, save_current_run_deals, Finset.sort_toFinset]

/-- C10: a qualified Amazon deal with an absent or empty `deal_id`
contributes `""` to the current-run id set, which the run persists and a
subsequent load returns — while the deal itself is excluded from the
new-or-returning classification. -/
theorem C10_empty_id_persisted (deals : List Deal) (P : Finset String) (d : Deal)
    (hd : d ∈ deals) (ha : isAmazonDeal d = true) (hid : dealIdStr d = "") :
    "" ∈ (runLoop P deals).current_amazon_ids ∧
    d ∉ (runLoop P deals).new_or_returning_deals ∧
    "" ∈ load_last_run_deals
        (save_current_run_deals (runLoop P deals).current_amazon_ids) := by
  have hmem : "" ∈ (runLoop P deals).current_amazon_ids := by
    rw [runLoop_current_ids]
    exact hid ▸ dealIdStr_mem_amazonIdsOf hd ha
  refine ⟨hmem, ?_, ?_⟩
  · intro hc
    rw [runLoop_new_or_returning, reportableOf, List.mem_filter] at hc
    simp only [Bool.and_eq_true, decide_eq_true_eq] at hc
    exact hc.2.2.1 hid
  · simpa [load_last_run_deals, save_current_run_deals, Finset.sort_toFinset]
      using hmem

/-- C10, evaluated on an Amazon deal with no `deal_id` key. -/
theorem C10_empty_id_persisted_witness :
    "" ∈ (runLoop (∅ : Finset String) [dealNoId]).current_amazon_ids ∧
    dealNoId ∉ (runLoop (∅ : Finset String) [dealNoId]).new_or_returning_deals ∧
    "" ∈ load_last_run_deals
        (save_current_run_deals
          (runLoop (∅ : Finset String) [dealNoId]).current_amazon_ids) :=
  C10_empty_id_persisted [dealNoId] ∅ dealNoId (by decide) (by decide) rfl

end BFMRMonitor
